import Mathlib

/-!
Shallow embedding of the text-layout and compositing core of `quote_studio.py`.

Conventions used throughout:
* A font handle together with a `draw` object is modelled by abstract measure
  functions `widthOf heightOf : String → Nat`, standing for
  `draw.textbbox((0,0), s, font=font)`'s `bbox[2] - bbox[0]` and
  `bbox[3] - bbox[1]` (both nonnegative pixel extents).
* Python `str.split()` (split on whitespace runs, dropping empty pieces) and
  `str.strip()` are reimplemented over the character list of a string.
* Rasters are row-major lists of RGB triples with explicit dimensions.
* Python floats: the source computes `int(font_size * 0.25)`; `0.25` is a dyadic
  rational, so this is exactly `font_size / 4` in integer division.  The source
  also computes `int(n * 0.6)`; for every `n` in the magnitudes reachable here
  (`n ≤ 2^40`), the IEEE-754 double product `n * 0.6` truncates to `6 * n / 10`,
  so the embedding uses that closed form.
-/

/-- Python `str.split()` worker: walk the characters, accumulating the current
word (reversed) in `acc`; whitespace flushes the word, runs of whitespace
produce nothing. -/
def splitRun : List Char → List Char → List String
  | [], acc => if acc = [] then [] else [String.mk acc.reverse]
  | c :: cs, acc =>
    if c.isWhitespace then
      if acc = [] then splitRun cs [] else String.mk acc.reverse :: splitRun cs []
    else splitRun cs (c :: acc)

/-- Python `text.split()` as used at line 107 of the source. -/
def splitWords (text : String) : List String :=
  splitRun text.data []

/-- Python `str.strip()` as used at lines 410-411 of the source. -/
def pyStrip (s : String) : String :=
  String.mk ((s.data.dropWhile Char.isWhitespace).reverse.dropWhile Char.isWhitespace).reverse

/-- The word loop of `wrap_text` (source lines 110-120): greedy accumulation of
words into `line`; a candidate that fits (measured width ≤ `max_width`) extends
the line, otherwise the nonempty current line is flushed and the word starts a
new line. -/
def wrapAux (widthOf : String → Nat) (max_width : Nat) : List String → String → List String
  | [], line => if line = "" then [] else [line]
  | w :: ws, line =>
    let test := if line = "" then w else line ++ " " ++ w
    if widthOf test ≤ max_width then
      wrapAux widthOf max_width ws test
    else
      if line = "" then wrapAux widthOf max_width ws w
      else line :: wrapAux widthOf max_width ws w

/-- `wrap_text` (source lines 104-121). -/
def wrap_text (text : String) (widthOf : String → Nat) (max_width : Nat) : List String :=
  if text = "" then [] else wrapAux widthOf max_width (splitWords text) ""

/-- Joining a list of strings with single spaces (`" ".join(...)`), used to
state the reconstruction property of the wrapper. -/
def joinWords : List String → String
  | [] => ""
  | [w] => w
  | w :: ws => w ++ " " ++ joinWords ws

/-- `measure_multiline` (source lines 123-137): per-line heights, running max of
widths (starting from 0), total height `sum + line_spacing * (n - 1)` for a
nonempty list and `0` otherwise. -/
def measure_multiline (lines : List String) (widthOf heightOf : String → Nat)
    (line_spacing : Nat) : Nat × Nat × List Nat :=
  let line_heights := lines.map heightOf
  let width := (lines.map widthOf).foldl max 0
  let height :=
    if line_heights = [] then 0
    else line_heights.sum + line_spacing * (line_heights.length - 1)
  (width, height, line_heights)

/-- The author-marker prefix the source prepends (line 411): the literal
mojibake bytes `"â€“ "` of `f"â€“ {self.author.strip()}"`. -/
def authorMarker : String :=
  "â€“ "

/-- `compute_text_layout` (source lines 404-421).  Returns
`(quote_lines, author_block_lines, (total_w, total_h), line_spacing, spacer_h)`.
`int(self.font_size * 0.25)` is `font_size / 4` and `int(h * 0.6)` is
`6 * h / 10` (see the header note on floats). -/
def compute_text_layout (quote author : String) (widthOf heightOf : String → Nat)
    (font_size max_width : Nat) :
    List String × List String × (Nat × Nat) × Nat × Nat :=
  let quote_lines := if quote = "" then [] else wrap_text quote widthOf max_width
  let line_spacing := max 6 (font_size / 4)
  let qm := measure_multiline quote_lines widthOf heightOf line_spacing
  let q_w := qm.1
  let q_h := qm.2.1
  let q_line_heights := qm.2.2
  let author_block_lines :=
    if pyStrip author = "" then []
    else
      let author_text := authorMarker ++ pyStrip author
      "" :: wrap_text author_text widthOf max_width
  let am := measure_multiline (author_block_lines.filter (fun ln => ln ≠ "")) widthOf heightOf
    line_spacing
  let a_w := am.1
  let a_h := am.2.1
  let spacer_h :=
    if author_block_lines = [] then 0
    else
      match q_line_heights.getLast? with
      | some h => 6 * h / 10
      | none => 6 * font_size / 10
  let total_w := max q_w a_w
  let total_h := q_h + (if author_block_lines = [] then 0 else spacer_h) + a_h
  (quote_lines, author_block_lines, (total_w, total_h), line_spacing, spacer_h)

/-- `compute_text_bbox` (source lines 454-462), parametrised by the layout's
total size: `None` when either total dimension is zero, otherwise the box
anchored at `(x, y)`. -/
def compute_text_bbox (x y : Int) (total_w total_h : Nat) : Option (Int × Int × Int × Int) :=
  if total_w = 0 ∨ total_h = 0 then none
  else some (x, y, x + total_w, y + total_h)

/-- One axis of `clamp_text_within` (source lines 380-389): `d` starts at 0, the
low-edge overflow sets it to `-x0`, and the high-edge branch
`limit - x1 if (limit - x1) < d else limit - x1` (both arms identical in the
source) overrides it with `limit - x1`. -/
def clamp_shift (limit x0 x1 : Int) : Int :=
  let d := if x0 < 0 then -x0 else 0
  if x1 > limit then (if limit - x1 < d then limit - x1 else limit - x1) else d

/-- `clamp_text_within` (source lines 373-391): recompute the bounding box at
the current anchor, return the anchor unchanged when the box is absent,
otherwise translate the anchor by the per-axis shifts. -/
def clamp_text_within (img_w img_h : Nat) (pos : Int × Int) (total_w total_h : Nat) :
    Int × Int :=
  match compute_text_bbox pos.1 pos.2 total_w total_h with
  | none => pos
  | some (x0, y0, x1, y1) =>
    (pos.1 + clamp_shift img_w x0 x1, pos.2 + clamp_shift img_h y0 y1)

/-- `point_in_text_bbox` (source lines 393-398): `False` when the box is
absent, otherwise the inclusive rectangle test
`(x0 <= x <= x1) and (y0 <= y <= y1)`. -/
def point_in_text_bbox (bbox : Option (Int × Int × Int × Int)) (x y : Int) : Bool :=
  match bbox with
  | none => false
  | some (x0, y0, x1, y1) => decide (x0 ≤ x ∧ x ≤ x1) && decide (y0 ≤ y ∧ y ≤ y1)

/-- An RGB raster: explicit dimensions and a row-major list of RGB triples. -/
structure Raster where
  width : Nat
  height : Nat
  pixels : List (Nat × Nat × Nat)
deriving DecidableEq

/-- Pillow's RGB→L conversion (`rgb2l` in Pillow's `Convert.c`, the ITU-R 601-2
luma used by `ImageOps.grayscale`): `(r*19595 + g*38470 + b*7471 + 0x8000) >> 16`. -/
def l24 (r g b : Nat) : Nat :=
  (r * 19595 + g * 38470 + b * 7471 + 32768) / 65536

/-- Grayscale one RGB pixel and re-expand to three identical channels. -/
def grayscalePixel (p : Nat × Nat × Nat) : Nat × Nat × Nat :=
  let l := l24 p.1 p.2.1 p.2.2
  (l, l, l)

/-- `ImageOps.grayscale(img).convert("RGB")` (source line 87): per-pixel luma,
replicated into all three channels; dimensions unchanged. -/
def grayscaleRGB (img : Raster) : Raster :=
  { img with pixels := img.pixels.map grayscalePixel }

/-- The Cyberpunk channel swap (source lines 91-92): split into `r, g, b` and
re-merge as `(b, g, r)`. -/
def swapRB (img : Raster) : Raster :=
  { img with pixels := img.pixels.map (fun p => (p.2.2, p.2.1, p.1)) }

/-- `Image.new("RGB", size, color)` (source line 97): a solid raster. -/
def Raster.solid (w h : Nat) (color : Nat × Nat × Nat) : Raster :=
  { width := w, height := h, pixels := List.replicate (w * h) color }

/-- The Pillow operations `apply_style` delegates to.  These are external
library collaborators (not code of this repository), so they enter the
embedding as abstract raster transforms; the factors the source passes are
recorded as exact rationals at the call sites in `apply_style`. -/
structure PILOps where
  contrast : Raster → ℚ → Raster
  gaussian_blur : Raster → ℚ → Raster
  color : Raster → ℚ → Raster
  brightness : Raster → ℚ → Raster
  blend : Raster → Raster → ℚ → Raster
  unsharp_mask : Raster → ℚ → ℚ → ℚ → Raster

/-- `apply_style` (source lines 78-102).  `background.convert("RGB")` is the
identity on this RGB raster model.  Dispatch is the source's open if/elif
chain on the style-name string with a fall-through returning `img`. -/
def apply_style (ops : PILOps) (background : Raster) (style_name : String) : Raster :=
  let img := background
  if style_name = "None" then img
  else if style_name = "Epic" then
    ops.gaussian_blur (ops.contrast img (3 / 2)) 3
  else if style_name = "Noir" then
    grayscaleRGB img
  else if style_name = "Fancy" then
    ops.color img (8 / 5)
  else if style_name = "Cyberpunk" then
    ops.contrast (ops.color (swapRB img) (6 / 5)) (11 / 10)
  else if style_name = "Phonk" then
    let img1 := ops.brightness img (3 / 4)
    let overlay := Raster.solid img1.width img1.height (40, 0, 60)
    ops.contrast (ops.blend img1 overlay (1 / 5)) (11 / 10)
  else if style_name = "Tech" then
    ops.unsharp_mask img 2 200 3
  else img

/-- The mutable state of the main widget that a recompute pass touches
(source lines 189-199): the base raster, the selected style, and the two
derived rasters plus the preview pixmap. -/
structure StudioState where
  base_image : Raster
  current_style : String
  filtered_bg : Raster
  result_image : Raster
  preview_pixmap : Option Raster
deriving DecidableEq

/-- `recompute` (source lines 495-502).  The three fallible steps of the pass
(`apply_style` via Pillow, `compose_final`, `update_preview_pixmap`) are
modelled as `Except`-valued collaborators so that an exception at any point
can be represented; the `try`/`except` wrapping the whole body catches the
exception, so the function is total and each assignment lands exactly when
the steps before it succeeded. -/
def recompute
    (applyStyleE : Raster → String → Except String Raster)
    (composeFinalE : Raster → StudioState → Except String Raster)
    (updatePreviewE : Raster → Except String Raster)
    (s : StudioState) : StudioState :=
  match applyStyleE s.base_image s.current_style with
  | .error _ => s
  | .ok fbg =>
    let s1 := { s with filtered_bg := fbg }
    match composeFinalE fbg s1 with
    | .error _ => s1
    | .ok res =>
      let s2 := { s1 with result_image := res }
      match updatePreviewE res with
      | .error _ => s2
      | .ok pix => { s2 with preview_pixmap := some pix }


/-! ## Lemmas about the wrapper -/

/-- `String.mk` of a nonempty character list is a nonempty string. -/
theorem mk_ne_empty (l : List Char) (h : l ≠ []) : String.mk l ≠ "" := by
  intro hc
  apply h
  have hd := congrArg String.data hc
  simpa using hd

/-- Every word produced by `splitRun` is a nonempty string. -/
theorem splitRun_mem_ne_empty :
    ∀ (cs acc : List Char), ∀ w ∈ splitRun cs acc, w ≠ "" := by
  intro cs
  induction cs with
  | nil =>
    intro acc w hw
    by_cases h : acc = [] <;> simp [splitRun, h] at hw
    subst hw
    exact mk_ne_empty _ (fun hc => h (List.reverse_eq_nil_iff.mp hc))
  | cons c cs ih =>
    intro acc w hw
    by_cases hws : c.isWhitespace
    · by_cases h : acc = []
      · simp [splitRun, hws, h] at hw
        exact ih [] w hw
      · simp [splitRun, hws, h] at hw
        rcases hw with hw | hw
        · subst hw
          exact mk_ne_empty _ (fun hc => h (List.reverse_eq_nil_iff.mp hc))
        · exact ih [] w hw
    · simp [splitRun, hws] at hw
      exact ih (c :: acc) w hw

/-- Every word of `splitWords text` is nonempty (Python `split()` drops empty
pieces). -/
theorem splitWords_mem_ne_empty (text : String) : ∀ w ∈ splitWords text, w ≠ "" :=
  splitRun_mem_ne_empty text.data []

/-- A string of the form `a ++ " " ++ b` is never empty. -/
theorem append_space_ne_empty (a b : String) : a ++ " " ++ b ≠ "" := by
  intro h
  have h2 := congrArg String.length h
  rw [String.length_append, String.length_append] at h2
  have h1 : (" " : String).length = 1 := rfl
  have h0 : ("" : String).length = 0 := rfl
  omega

/-- Every line emitted by the wrap loop is a nonempty string: lines are only
flushed when the guard `if line:` holds, and the running line only ever grows
from a word or by appending to a nonempty line. -/
theorem wrapAux_mem_ne_empty (widthOf : String → Nat) (mw : Nat) :
    ∀ (ws : List String) (line : String), ∀ l ∈ wrapAux widthOf mw ws line, l ≠ "" := by
  intro ws
  induction ws with
  | nil =>
    intro line l hl
    by_cases h : line = "" <;> simp [wrapAux, h] at hl
    subst hl
    exact h
  | cons w ws ih =>
    intro line l hl
    by_cases h0 : line = ""
    · simp only [wrapAux, if_pos h0, ite_self] at hl
      exact ih w l hl
    · simp only [wrapAux, if_neg h0] at hl
      split at hl
      · exact ih _ l hl
      · rcases List.mem_cons.mp hl with hl | hl
        · subst hl
          exact h0
        · exact ih _ l hl

/-- Loop invariant for line widths: if each remaining word belongs to `W` and
the current line is empty, fits, or is a word of `W`, then every produced line
fits within `mw` or is a single word of `W`. -/
theorem wrapAux_width_inv (widthOf : String → Nat) (mw : Nat) (W : List String) :
    ∀ (ws : List String) (line : String), (∀ w ∈ ws, w ∈ W) →
      (line = "" ∨ widthOf line ≤ mw ∨ line ∈ W) →
      ∀ l ∈ wrapAux widthOf mw ws line, widthOf l ≤ mw ∨ l ∈ W := by
  intro ws
  induction ws with
  | nil =>
    intro line _ hline l hl
    by_cases h : line = "" <;> simp [wrapAux, h] at hl
    subst hl
    rcases hline with h' | h'
    · exact absurd h' h
    · exact h'
  | cons w ws ih =>
    intro line hws hline l hl
    have hwW : w ∈ W := hws w (List.mem_cons_self w ws)
    have hws' : ∀ w' ∈ ws, w' ∈ W := fun w' hw' => hws w' (List.mem_cons_of_mem w hw')
    by_cases h0 : line = ""
    · simp only [wrapAux, if_pos h0, ite_self] at hl
      exact ih w hws' (Or.inr (Or.inr hwW)) l hl
    · simp only [wrapAux, if_neg h0] at hl
      split at hl
      · rename_i hfit
        exact ih _ hws' (Or.inr (Or.inl hfit)) l hl
      · rcases List.mem_cons.mp hl with hl | hl
        · subst hl
          rcases hline with h' | h' | h'
          · exact absurd h' h0
          · exact Or.inl h'
          · exact Or.inr h'
        · exact ih _ hws' (Or.inr (Or.inr hwW)) l hl

/-- C1: every line produced by the text wrapper has measured pixel width at
most `max_width`, or else it consists of a single word of the input (an
oversized word kept on its own line, never split mid-word) whose own measured
width exceeds `max_width`. -/
theorem wrap_text_line_fits (text : String) (widthOf : String → Nat) (max_width : Nat)
    (hpos : 0 < max_width) :
    ∀ l ∈ wrap_text text widthOf max_width,
      widthOf l ≤ max_width ∨ (l ∈ splitWords text ∧ max_width < widthOf l) := by
  intro l hl
  unfold wrap_text at hl
  split at hl
  · simp at hl
  · have h := wrapAux_width_inv widthOf max_width (splitWords text) (splitWords text) ""
      (fun w hw => hw) (Or.inl rfl) l hl
    rcases h with h | h
    · exact Or.inl h
    · by_cases hle : widthOf l ≤ max_width
      · exact Or.inl hle
      · exact Or.inr ⟨h, Nat.lt_of_not_le hle⟩

/-- Witness for C1 at a concrete input: wrapping `"hello world"` with a
10-pixels-per-character font at width 100 produces the line `"hello"`, which
fits. -/
theorem wrap_text_line_fits_witness :
    (fun s : String => 10 * s.length) "hello" ≤ 100 ∨
      ("hello" ∈ splitWords "hello world" ∧ 100 < (fun s : String => 10 * s.length) "hello") :=
  wrap_text_line_fits "hello world" (fun s => 10 * s.length) 100 (by decide) "hello" (by decide)

/-- `joinWords` of a cons with a nonempty tail inserts one space. -/
theorem joinWords_cons (a : String) (l : List String) (h : l ≠ []) :
    joinWords (a :: l) = a ++ " " ++ joinWords l := by
  cases l with
  | nil => exact absurd rfl h
  | cons b bs => rfl

/-- Gluing: a head that is itself two space-joined pieces contributes the same
as the two pieces joined separately. -/
theorem joinWords_glue (a b : String) (l : List String) :
    joinWords ((a ++ " " ++ b) :: l) = a ++ " " ++ joinWords (b :: l) := by
  cases l with
  | nil => rfl
  | cons c cs =>
    simp [joinWords_cons _ _ (List.cons_ne_nil c cs), String.append_assoc]

/-- The wrap loop never returns an empty line list when the running line is
nonempty. -/
theorem wrapAux_ne_nil (widthOf : String → Nat) (mw : Nat) :
    ∀ (ws : List String) (line : String), line ≠ "" → wrapAux widthOf mw ws line ≠ [] := by
  intro ws
  induction ws with
  | nil =>
    intro line h
    simp [wrapAux, h]
  | cons w ws ih =>
    intro line h
    simp only [wrapAux, if_neg h]
    split
    · exact ih _ (append_space_ne_empty line w)
    · exact List.cons_ne_nil _ _

/-- Core of the reconstruction property: joining the wrap loop's output with
single spaces equals joining the pending line (when nonempty) followed by the
remaining words. -/
theorem wrapAux_join (widthOf : String → Nat) (mw : Nat) :
    ∀ (ws : List String), (∀ w ∈ ws, w ≠ "") → ∀ line,
      joinWords (wrapAux widthOf mw ws line) =
        joinWords (if line = "" then ws else line :: ws) := by
  intro ws
  induction ws with
  | nil =>
    intro _ line
    by_cases h : line = "" <;> simp [wrapAux, h, joinWords]
  | cons w ws ih =>
    intro hws line
    have hw : w ≠ "" := hws w (List.mem_cons_self w ws)
    have hws' : ∀ w' ∈ ws, w' ≠ "" := fun w' hw' => hws w' (List.mem_cons_of_mem w hw')
    by_cases h0 : line = ""
    · subst h0
      have hred : wrapAux widthOf mw (w :: ws) "" =
          if widthOf w ≤ mw then wrapAux widthOf mw ws w else wrapAux widthOf mw ws w := rfl
      have htgt : (if ("" : String) = "" then w :: ws else "" :: w :: ws) = w :: ws := by simp
      rw [hred, ite_self, htgt, ih hws' w, if_neg hw]
    · simp only [wrapAux, if_neg h0]
      split
    -- the candidate line `line ++ " " ++ w` was accepted
      · rw [ih hws' (line ++ " " ++ w), if_neg (append_space_ne_empty line w), joinWords_glue,
          joinWords_cons _ _ (List.cons_ne_nil w ws)]
    -- the current line was flushed and `w` started a new line
      · rw [joinWords_cons _ _ (wrapAux_ne_nil widthOf mw ws w hw), ih hws' w, if_neg hw,
          joinWords_cons _ _ (List.cons_ne_nil w ws)]

/-- C2: joining the wrapper's output lines with single spaces yields exactly
the whitespace-normalized input text — the input split on whitespace and
rejoined with single spaces — so every word appears, in order, with no word
dropped, duplicated, or split. -/
theorem wrap_text_rejoin (text : String) (widthOf : String → Nat) (max_width : Nat) :
    joinWords (wrap_text text widthOf max_width) = joinWords (splitWords text) := by
  unfold wrap_text
  by_cases h : text = ""
  · rw [if_pos h, h]
    rfl
  · rw [if_neg h, wrapAux_join widthOf max_width (splitWords text)
      (splitWords_mem_ne_empty text) "", if_pos rfl]

/-! ## Lemmas about the measurer -/

/-- A running `max` fold bounds every element and its seed. -/
theorem foldl_max_bounds (l : List Nat) :
    ∀ a : Nat, a ≤ l.foldl max a ∧ ∀ x ∈ l, x ≤ l.foldl max a := by
  induction l with
  | nil => exact fun a => ⟨le_refl a, by simp⟩
  | cons x xs ih =>
    intro a
    have h := ih (max a x)
    refine ⟨le_trans (le_max_left a x) h.1, fun y hy => ?_⟩
    rcases List.mem_cons.mp hy with hy | hy
    · rw [hy]
      exact le_trans (le_max_right a x) h.1
    · exact h.2 y hy

/-- A running `max` fold returns its seed or an element of the list. -/
theorem foldl_max_mem (l : List Nat) :
    ∀ a : Nat, l.foldl max a = a ∨ l.foldl max a ∈ l := by
  induction l with
  | nil => exact fun a => Or.inl rfl
  | cons x xs ih =>
    intro a
    rcases ih (max a x) with h | h
    · rcases Nat.le_total a x with hax | hxa
      · right
        rw [List.foldl_cons, h, max_eq_right hax]
        exact List.mem_cons_self x xs
      · left
        rw [List.foldl_cons, h, max_eq_left hxa]
    · right
      exact List.mem_cons_of_mem x h

/-- C5: the multiline measurer returns the per-line heights, a total height of
`sum of heights + line_spacing × (line count − 1)`, and a width that bounds
every measured line width and is attained by one of them when any line exists;
zero lines give zero width, zero height and no heights. -/
theorem measure_multiline_spec (lines : List String) (widthOf heightOf : String → Nat)
    (S : Nat) :
    (measure_multiline lines widthOf heightOf S).2.2 = lines.map heightOf ∧
    (measure_multiline lines widthOf heightOf S).2.1
        = (lines.map heightOf).sum + S * (lines.length - 1) ∧
    (∀ l ∈ lines, widthOf l ≤ (measure_multiline lines widthOf heightOf S).1) ∧
    (lines ≠ [] →
      (measure_multiline lines widthOf heightOf S).1 ∈ lines.map widthOf) ∧
    measure_multiline [] widthOf heightOf S = (0, 0, []) := by
  refine ⟨rfl, ?_, ?_, ?_, rfl⟩
  · show (if lines.map heightOf = [] then 0
        else (lines.map heightOf).sum + S * ((lines.map heightOf).length - 1))
      = (lines.map heightOf).sum + S * (lines.length - 1)
    split
    · rename_i h
      rw [List.map_eq_nil_iff] at h
      subst h
      rfl
    · rw [List.length_map]
  · intro l hl
    exact (foldl_max_bounds (lines.map widthOf) 0).2 (widthOf l) (List.mem_map_of_mem widthOf hl)
  · intro hne
    rcases foldl_max_mem (lines.map widthOf) 0 with h | h
    · -- the fold equals its seed 0, so the head line's width is 0 and attains it
      cases lines with
      | nil => exact absurd rfl hne
      | cons x xs =>
        have hb := (foldl_max_bounds ((x :: xs).map widthOf) 0).2 (widthOf x)
          (List.mem_map_of_mem widthOf (List.mem_cons_self x xs))
        rw [h] at hb
        have hzero : widthOf x = 0 := Nat.le_zero.mp hb
        show (List.map widthOf (x :: xs)).foldl max 0 ∈ List.map widthOf (x :: xs)
        rw [h, ← hzero]
        exact List.mem_map_of_mem widthOf (List.mem_cons_self x xs)
    · exact h

/-- Witness for C5 at a concrete input: two lines measured with
character-count fonts and spacing 3. -/
theorem measure_multiline_spec_witness :
    (measure_multiline ["ab", "c"] String.length String.length 3).2.1
        = (["ab", "c"].map String.length).sum + 3 * (["ab", "c"].length - 1) ∧
    String.length "ab" ≤ (measure_multiline ["ab", "c"] String.length String.length 3).1 ∧
    (measure_multiline ["ab", "c"] String.length String.length 3).1
        ∈ ["ab", "c"].map String.length :=
  ⟨(measure_multiline_spec ["ab", "c"] String.length String.length 3).2.1,
   (measure_multiline_spec ["ab", "c"] String.length String.length 3).2.2.1 "ab" (by decide),
   (measure_multiline_spec ["ab", "c"] String.length String.length 3).2.2.2.1 (by decide)⟩

/-! ## The layout composer: line spacing and the empty-quote author block -/

/-- Every line of `wrap_text` is nonempty. -/
theorem wrap_text_mem_ne_empty (text : String) (widthOf : String → Nat) (max_width : Nat) :
    ∀ l ∈ wrap_text text widthOf max_width, l ≠ "" := by
  intro l hl
  unfold wrap_text at hl
  split at hl
  · simp at hl
  · exact wrapAux_mem_ne_empty widthOf max_width (splitWords text) "" l hl

/-- `measure_multiline` on no lines. -/
theorem measure_multiline_nil (widthOf heightOf : String → Nat) (S : Nat) :
    measure_multiline [] widthOf heightOf S = (0, 0, []) := rfl

/-- Modelled from the spec: the spec's claimed line spacing
`max(6, round(font_size × 0.25))` with `round` to the nearest integer
(`⌊(font_size + 2) / 4⌋`). -/
def spec_line_spacing (font_size : Nat) : Nat :=
  max 6 ((font_size + 2) / 4)

/-- Example font: 10 pixels per character. -/
def wEx : String → Nat := fun s => 10 * s.length

/-- Example font: every line is 50 pixels tall. -/
def hEx : String → Nat := fun _ => 50

/-- Counterexample to C4 as stated: at font size 27 (inside [10,200]) the
source's `int(27 * 0.25)` truncates to 6, while rounding to the nearest
integer gives 7, so the composed line spacing is not
`max(6, round(font_size × 0.25))`. -/
theorem compute_text_layout_line_spacing_cex :
    10 ≤ 27 ∧ 27 ≤ 200 ∧
    (compute_text_layout "x" "" wEx hEx 27 1000).2.2.2.1 = 6 ∧
    spec_line_spacing 27 = 7 ∧
    (compute_text_layout "x" "" wEx hEx 27 1000).2.2.2.1 ≠ spec_line_spacing 27 := by
  decide

/-- C4 amended: for every font size in [10,200] the layout composer's line
spacing equals `max(6, ⌊font_size × 0.25⌋)` — the source truncates
(`int(font_size * 0.25)`, exactly `font_size / 4`) rather than rounding to
nearest. -/
theorem compute_text_layout_line_spacing (quote author : String)
    (widthOf heightOf : String → Nat) (font_size max_width : Nat)
    (h10 : 10 ≤ font_size) (h200 : font_size ≤ 200) :
    (compute_text_layout quote author widthOf heightOf font_size max_width).2.2.2.1
        = max 6 (font_size / 4) := rfl

/-- Witness for the amended C4 at font size 64. -/
theorem compute_text_layout_line_spacing_witness :
    (compute_text_layout "hi" "yo" wEx hEx 64 500).2.2.2.1 = max 6 (64 / 4) :=
  compute_text_layout_line_spacing "hi" "yo" wEx hEx 64 500 (by decide) (by decide)

/-- Counterexample to C3 as stated: with quote `""` and author `"Jane Doe"`
(font size 64), the author block starts with a blank spacer line, and the
total height is 88 = spacer 38 + author block height 50 rather than the
author block height alone. -/
theorem compute_text_layout_empty_quote_cex :
    pyStrip "Jane Doe" ≠ "" ∧
    (compute_text_layout "" "Jane Doe" wEx hEx 64 1080).2.1.head? = some "" ∧
    (compute_text_layout "" "Jane Doe" wEx hEx 64 1080).2.2.1.2 = 88 ∧
    (measure_multiline
        ((compute_text_layout "" "Jane Doe" wEx hEx 64 1080).2.1.filter (fun ln => ln ≠ ""))
        wEx hEx (compute_text_layout "" "Jane Doe" wEx hEx 64 1080).2.2.2.1).2.1 = 50 ∧
    (88 : Nat) ≠ 50 := by
  decide

/-- C3 amended: when the quote is empty and the trimmed author is non-empty,
the source still prepends the blank spacer line to the author block, and the
layout's total height is `⌊font_size × 0.6⌋` (the no-quote-lines fallback
spacer) plus the author block's measured height. -/
theorem compute_text_layout_empty_quote (author : String)
    (widthOf heightOf : String → Nat) (font_size max_width : Nat)
    (h : pyStrip author ≠ "") :
    (compute_text_layout "" author widthOf heightOf font_size max_width).2.1
        = "" :: wrap_text (authorMarker ++ pyStrip author) widthOf max_width ∧
    (compute_text_layout "" author widthOf heightOf font_size max_width).2.2.1.2
        = 6 * font_size / 10
          + (measure_multiline (wrap_text (authorMarker ++ pyStrip author) widthOf max_width)
              widthOf heightOf (max 6 (font_size / 4))).2.1 := by
  have hfilter : List.filter (fun ln => !decide (ln = ""))
      (wrap_text (authorMarker ++ pyStrip author) widthOf max_width)
        = wrap_text (authorMarker ++ pyStrip author) widthOf max_width :=
    List.filter_eq_self.mpr fun a ha => by
      simpa using wrap_text_mem_ne_empty (authorMarker ++ pyStrip author) widthOf max_width a ha
  constructor
  · simp [compute_text_layout, h]
  · simp [compute_text_layout, h, measure_multiline_nil, hfilter]

/-- Witness for the amended C3 at the concrete empty-quote input. -/
theorem compute_text_layout_empty_quote_witness :
    (compute_text_layout "" "Jane Doe" wEx hEx 64 1080).2.1
        = "" :: wrap_text (authorMarker ++ pyStrip "Jane Doe") wEx 1080 ∧
    (compute_text_layout "" "Jane Doe" wEx hEx 64 1080).2.2.1.2
        = 6 * 64 / 10
          + (measure_multiline (wrap_text (authorMarker ++ pyStrip "Jane Doe") wEx 1080)
              wEx hEx (max 6 (64 / 4))).2.1 :=
  compute_text_layout_empty_quote "Jane Doe" wEx hEx 64 1080 (by decide)

/-! ## Clamp and hit test -/

/-- One clamp axis puts the interval `[x0, x1]` inside `[0, limit]` whenever
its length fits. -/
theorem clamp_shift_spec (limit x0 x1 : Int) (hfits : x1 - x0 ≤ limit) :
    0 ≤ x0 + clamp_shift limit x0 x1 ∧ x1 + clamp_shift limit x0 x1 ≤ limit := by
  simp only [clamp_shift]
  split_ifs <;> omega

/-- One clamp axis is a no-op on an interval already inside `[0, limit]`. -/
theorem clamp_shift_noop (limit x0 x1 : Int) (h0 : 0 ≤ x0) (h1 : x1 ≤ limit) :
    clamp_shift limit x0 x1 = 0 := by
  simp only [clamp_shift]
  split_ifs <;> omega

/-- C6: for every anchor and present bounding box that fits inside the canvas,
the clamped anchor's box satisfies `0 ≤ x0`, `x1 ≤ canvas_width`, `0 ≤ y0` and
`y1 ≤ canvas_height`; and a box already fully inside leaves the anchor
unchanged. -/
theorem clamp_text_within_bounds (img_w img_h : Nat) (pos : Int × Int) (total_w total_h : Nat)
    (hw0 : 0 < total_w) (hh0 : 0 < total_h)
    (hw : (total_w : Int) ≤ (img_w : Int)) (hh : (total_h : Int) ≤ (img_h : Int)) :
    (0 ≤ (clamp_text_within img_w img_h pos total_w total_h).1 ∧
     (clamp_text_within img_w img_h pos total_w total_h).1 + total_w ≤ img_w ∧
     0 ≤ (clamp_text_within img_w img_h pos total_w total_h).2 ∧
     (clamp_text_within img_w img_h pos total_w total_h).2 + total_h ≤ img_h) ∧
    ((0 ≤ pos.1 ∧ pos.1 + total_w ≤ img_w ∧ 0 ≤ pos.2 ∧ pos.2 + total_h ≤ img_h) →
      clamp_text_within img_w img_h pos total_w total_h = pos) := by
  have hbox : compute_text_bbox pos.1 pos.2 total_w total_h
      = some (pos.1, pos.2, pos.1 + total_w, pos.2 + total_h) := by
    unfold compute_text_bbox
    rw [if_neg]
    push_neg
    omega
  unfold clamp_text_within
  rw [hbox]
  constructor
  · have h1 := clamp_shift_spec img_w pos.1 (pos.1 + total_w) (by omega)
    have h2 := clamp_shift_spec img_h pos.2 (pos.2 + total_h) (by omega)
    dsimp only
    refine ⟨by omega, by omega, by omega, by omega⟩
  · intro hin
    dsimp only
    rw [clamp_shift_noop img_w pos.1 (pos.1 + total_w) hin.1 (by omega),
        clamp_shift_noop img_h pos.2 (pos.2 + total_h) hin.2.2.1 (by omega)]
    simp

/-- Witness for C6: anchor `(-5, 3)` with a 20×10 box on a 100×80 canvas is
clamped to a nonnegative x-coordinate. -/
theorem clamp_text_within_bounds_witness :
    0 ≤ (clamp_text_within 100 80 (-5, 3) 20 10).1 :=
  (clamp_text_within_bounds 100 80 (-5, 3) 20 10 (by decide) (by decide) (by decide)
    (by decide)).1.1

/-- C7: for a present bounding box the hit test succeeds exactly on the points
of the inclusive rectangle `[x0, x1] × [y0, y1]`; in particular both corners
`(x0, y0)` and `(x1, y1)` test as inside. -/
theorem point_in_text_bbox_spec (x y x0 y0 x1 y1 : Int) (hx : x0 ≤ x1) (hy : y0 ≤ y1) :
    (point_in_text_bbox (some (x0, y0, x1, y1)) x y = true ↔
      x0 ≤ x ∧ x ≤ x1 ∧ y0 ≤ y ∧ y ≤ y1) ∧
    point_in_text_bbox (some (x0, y0, x1, y1)) x0 y0 = true ∧
    point_in_text_bbox (some (x0, y0, x1, y1)) x1 y1 = true := by
  refine ⟨?_, ?_, ?_⟩
  · simp [point_in_text_bbox, and_assoc]
  · simp [point_in_text_bbox]
    omega
  · simp [point_in_text_bbox]
    omega

/-- Witness for C7: the top-left corner of the box `(0,0)-(4,2)` is inside. -/
theorem point_in_text_bbox_spec_witness :
    point_in_text_bbox (some (0, 0, 4, 2)) 0 0 = true :=
  (point_in_text_bbox_spec 9 9 0 0 4 2 (by decide) (by decide)).2.1

/-! ## Styles -/

/-- The grayscale weights sum to `2^16`, so the luma of an achromatic pixel is
its own value. -/
theorem l24_diag (l : Nat) : l24 l l l = l := by
  unfold l24
  rw [show l * 19595 + l * 38470 + l * 7471 = 65536 * l by ring]
  rw [Nat.mul_add_div (by norm_num)]
  norm_num

/-- Graying an already-gray pixel changes nothing. -/
theorem grayscalePixel_idem (p : Nat × Nat × Nat) :
    grayscalePixel (grayscalePixel p) = grayscalePixel p := by
  rcases p with ⟨r, g, b⟩
  simp [grayscalePixel, l24_diag]

/-- C8: the Noir style is idempotent — applying it twice yields a raster
identical to applying it once (grayscale conversion followed by re-expansion
to RGB is a projection). -/
theorem apply_style_noir_idempotent (ops : PILOps) (background : Raster) :
    apply_style ops (apply_style ops background "Noir") "Noir"
      = apply_style ops background "Noir" := by
  have hnoir : ∀ r : Raster, apply_style ops r "Noir" = grayscaleRGB r := fun r => rfl
  rw [hnoir, hnoir]
  unfold grayscaleRGB
  simp only [List.map_map, Raster.mk.injEq, true_and]
  exact List.map_congr_left fun p _ => grayscalePixel_idem p

/-- C10: for every input raster and every style-name string, the style filter
preserves the raster's dimensions (given that the external Pillow transforms
it delegates to preserve dimensions, which Pillow guarantees), and any name
outside the enumerated set falls through the open string dispatch and returns
the RGB-converted input unchanged. -/
theorem apply_style_dims_and_fallthrough (ops : PILOps) (background : Raster)
    (hcon : ∀ r q, (ops.contrast r q).width = r.width ∧ (ops.contrast r q).height = r.height)
    (hgb : ∀ r q,
      (ops.gaussian_blur r q).width = r.width ∧ (ops.gaussian_blur r q).height = r.height)
    (hcol : ∀ r q, (ops.color r q).width = r.width ∧ (ops.color r q).height = r.height)
    (hbr : ∀ r q,
      (ops.brightness r q).width = r.width ∧ (ops.brightness r q).height = r.height)
    (hbl : ∀ a b q, (ops.blend a b q).width = a.width ∧ (ops.blend a b q).height = a.height)
    (hum : ∀ r q1 q2 q3, (ops.unsharp_mask r q1 q2 q3).width = r.width ∧
        (ops.unsharp_mask r q1 q2 q3).height = r.height) :
    (∀ style_name : String,
      (apply_style ops background style_name).width = background.width ∧
      (apply_style ops background style_name).height = background.height) ∧
    (∀ style_name : String,
      style_name ∉ ["None", "Epic", "Noir", "Fancy", "Cyberpunk", "Phonk", "Tech"] →
        apply_style ops background style_name = background) := by
  constructor
  · intro name
    unfold apply_style
    split_ifs with h1 h2 h3 h4 h5 h6 h7
    · exact ⟨rfl, rfl⟩
    · exact ⟨((hgb _ _).1).trans (hcon _ _).1, ((hgb _ _).2).trans (hcon _ _).2⟩
    · exact ⟨rfl, rfl⟩
    · exact hcol _ _
    · exact ⟨((hcon _ _).1).trans (hcol _ _).1, ((hcon _ _).2).trans (hcol _ _).2⟩
    · exact ⟨((hcon _ _).1).trans (((hbl _ _ _).1).trans (hbr _ _).1),
        ((hcon _ _).2).trans (((hbl _ _ _).2).trans (hbr _ _).2)⟩
    · exact hum _ _ _ _
    · exact ⟨rfl, rfl⟩
  · intro name hname
    unfold apply_style
    split_ifs with h1 h2 h3 h4 h5 h6 h7
    · exact absurd (by simp [h1]) hname
    · exact absurd (by simp [h2]) hname
    · exact absurd (by simp [h3]) hname
    · exact absurd (by simp [h4]) hname
    · exact absurd (by simp [h5]) hname
    · exact absurd (by simp [h6]) hname
    · exact absurd (by simp [h7]) hname
    · rfl

/-- Raster transforms that trivially preserve dimensions, used to instantiate
the external collaborators in witnesses. -/
def idOps : PILOps :=
  ⟨fun r _ => r, fun r _ => r, fun r _ => r, fun r _ => r, fun a _ _ => a, fun r _ _ _ => r⟩

/-- A 2×1 example raster. -/
def bgEx : Raster := ⟨2, 1, [(1, 2, 3), (4, 5, 6)]⟩

/-- Witness for C10: with dimension-preserving collaborators, `"Epic"` keeps
the 2×1 size and the unknown style `"Vaporwave"` is the identity. -/
theorem apply_style_dims_and_fallthrough_witness :
    (apply_style idOps bgEx "Epic").width = bgEx.width ∧
    apply_style idOps bgEx "Vaporwave" = bgEx :=
  ⟨((apply_style_dims_and_fallthrough idOps bgEx (fun _ _ => ⟨rfl, rfl⟩)
      (fun _ _ => ⟨rfl, rfl⟩) (fun _ _ => ⟨rfl, rfl⟩) (fun _ _ => ⟨rfl, rfl⟩)
      (fun _ _ _ => ⟨rfl, rfl⟩) (fun _ _ _ _ => ⟨rfl, rfl⟩)).1 "Epic").1,
   (apply_style_dims_and_fallthrough idOps bgEx (fun _ _ => ⟨rfl, rfl⟩)
      (fun _ _ => ⟨rfl, rfl⟩) (fun _ _ => ⟨rfl, rfl⟩) (fun _ _ => ⟨rfl, rfl⟩)
      (fun _ _ _ => ⟨rfl, rfl⟩) (fun _ _ _ _ => ⟨rfl, rfl⟩)).2 "Vaporwave" (by decide)⟩

/-! ## The recompute pass -/

/-- C9: when the pass fails during style filtering (`apply_style`) or during
layout/rendering (`compose_final`), `recompute` — which catches every
exception and is therefore modelled as a total function — leaves
`result_image` equal to its value before the pass: the last good render stays
visible. -/
theorem recompute_keeps_result_image_on_failure
    (applyStyleE : Raster → String → Except String Raster)
    (composeFinalE : Raster → StudioState → Except String Raster)
    (updatePreviewE : Raster → Except String Raster)
    (s : StudioState)
    (h : (∃ e, applyStyleE s.base_image s.current_style = .error e) ∨
         (∃ fbg e, applyStyleE s.base_image s.current_style = .ok fbg ∧
            composeFinalE fbg { s with filtered_bg := fbg } = .error e)) :
    (recompute applyStyleE composeFinalE updatePreviewE s).result_image = s.result_image := by
  unfold recompute
  rcases h with ⟨e, he⟩ | ⟨fbg, e, hok, herr⟩
  · simp only [he]
  · simp only [hok, herr]

/-- An example widget state over the 2×1 raster. -/
def sEx : StudioState := ⟨bgEx, "None", bgEx, bgEx, none⟩

/-- Witness for C9: a style-filter step that throws leaves `result_image`
untouched. -/
theorem recompute_keeps_result_image_on_failure_witness :
    (recompute (fun _ _ => Except.error "boom") (fun _ _ => Except.ok bgEx)
        (fun r => Except.ok r) sEx).result_image = sEx.result_image :=
  recompute_keeps_result_image_on_failure (fun _ _ => Except.error "boom")
    (fun _ _ => Except.ok bgEx) (fun r => Except.ok r) sEx (Or.inl ⟨"boom", rfl⟩)
